import Mathlib

/-!
Verification of the coercion module (`src/coercion.ts`) of conform-to-valibot.

The module exports three functions:
  * `coerceString(value, transform?)` — value-level string coercion helper;
  * `coerceFile(value)` — value-level empty-file detection helper;
  * `enableTypeCoercion(type, options?)` — a recursive rewrite of a valibot
    schema graph that attaches a preprocessing (coercion) step to the
    recognized schema kinds.

We embed the JavaScript runtime values the coercers inspect as `JSValue`,
the schema object graph as a store of `NodeData` indexed by node identity
(`Nat` ids, standing for JS reference identity), and the rewritten schema
values produced by `enableTypeCoercion` as `OutSchema` trees.  The recursive
rewrite is embedded fuel-indexed (`enableTypeCoercionF`): the JS function has
unbounded recursion, so divergence is modelled as "`none` for every fuel".
-/

/-- JavaScript runtime values, as far as the coercion helpers distinguish them.
`file` is a value constructed by the global `File` class (so that
`v instanceof File` holds); `obj` is a plain (non-`File`) object that happens
to carry `name` and `size` fields. -/
inductive JSValue where
  | undefined : JSValue
  | null : JSValue
  | str : String → JSValue
  | num : Int → JSValue
  | bool : Bool → JSValue
  | date : Int → JSValue
  | bigint : Int → JSValue
  | file : String → Nat → JSValue
  | obj : String → Nat → JSValue
  | arr : List JSValue → JSValue

/-- The test `typeof value === "string"`. -/
def isString : JSValue → Bool
  | .str _ => true
  | _ => false

/-- The test `typeof value === "undefined"`. -/
def isUndefined : JSValue → Bool
  | .undefined => true
  | _ => false

/-- The test `Array.isArray(value)`. -/
def isArray : JSValue → Bool
  | .arr _ => true
  | _ => false

/-- The test `value instanceof File` (assuming the global `File` class exists). -/
def isFileInstance : JSValue → Bool
  | .file _ _ => true
  | _ => false

/-- The `name` field read off a file-like value. -/
def fileName : JSValue → String
  | .file n _ => n
  | .obj n _ => n
  | _ => ""

/-- The `size` field read off a file-like value. -/
def fileSize : JSValue → Nat
  | .file _ s => s
  | .obj _ s => s
  | _ => 0

/-- Host-environment parameters the coercion steps depend on:
whether a global `File` class is defined (`typeof File !== "undefined"`),
and the JS conversions `new Date(...)` (with `none` standing for an
invalid date, i.e. `Number.isNaN(date.getTime())`), `Number(...)` and
`BigInt(...)`. -/
structure JSEnv where
  fileDefined : Bool
  parseDate : String → Option Int
  parseNumber : String → JSValue
  parseBigInt : String → JSValue

/-- The helper `coerceString(value, transform?)` from `src/coercion.ts` lines 34-51:
non-strings pass through, the empty string becomes `undefined`, a non-empty
string is returned unchanged when no transform is supplied and otherwise fed
to the transform. -/
def coerceString (value : JSValue) (transform : Option (String → JSValue)) : JSValue :=
  match value with
  | .str s =>
    if s = "" then
      .undefined
    else
      match transform with
      | none => .str s
      | some f => f s
  | v => v

/-- The helper `coerceFile(file)` from `src/coercion.ts` lines 57-68: returns
`undefined` exactly when the global `File` class is defined, the value is a
`File` instance, its `name` is `""` and its `size` is `0`; every other value
passes through unchanged. -/
def coerceFile (env : JSEnv) (file : JSValue) : JSValue :=
  if env.fileDefined && isFileInstance file && (fileName file = "") && (fileSize file = 0) then
    .undefined
  else
    file

/-- The identity of each preprocessing function `enableTypeCoercion` passes to
valibot's `coerce`, one per dispatch branch that attaches one. -/
inductive CoerceStep where
  | plainStep : CoerceStep
  | numberStep : CoerceStep
  | booleanStep : CoerceStep
  | dateStep : CoerceStep
  | bigintStep : CoerceStep
  | arrayStep : CoerceStep
deriving DecidableEq, Repr

/-- The preprocessing function each branch of `enableTypeCoercion` installs,
as a function on runtime values (`src/coercion.ts` lines 138-223). -/
def runStep (env : JSEnv) : CoerceStep → JSValue → JSValue
  | .plainStep, v => coerceString v none
  | .numberStep, v => coerceString v (some env.parseNumber)
  | .booleanStep, v =>
    coerceString v (some fun text => if text = "on" then .bool true else .str text)
  | .dateStep, v =>
    coerceString v (some fun timestamp =>
      match env.parseDate timestamp with
      | none => .str timestamp
      | some d => .date d)
  | .bigintStep, v => coerceString v (some env.parseBigInt)
  | .arrayStep, v =>
    if isArray v then
      v
    else if isUndefined v || isUndefined (coerceFile env v) then
      .arr []
    else
      .arr [v]

/-- The six wrapper schema kinds `enableTypeCoercion` recurses through
(`optional`, `nullish`, `nullable`, `non_optional`, `non_nullish`,
`non_nullable`; `src/coercion.ts` lines 224-295). -/
inductive WrapKind where
  | optional : WrapKind
  | nullish : WrapKind
  | nullable : WrapKind
  | nonOptional : WrapKind
  | nonNullish : WrapKind
  | nonNullable : WrapKind
deriving DecidableEq, Repr

/-- One node of the input schema object graph.  Child nodes are referred to by
their identity (a `Nat` id into the store), which lets the graph share nodes
and contain reference cycles exactly as JS object graphs can.  `noType` is a
value without a `type` field (line 126); `unknown` is a node whose `type`
string matches none of the dispatch branches (e.g. `"picklist"`, `"null"`, or
a lazy/`"recursive"` schema). -/
inductive NodeData where
  | stringT : NodeData
  | literal : NodeData
  | enumT : NodeData
  | undefinedT : NodeData
  | number : NodeData
  | boolean : NodeData
  | date : NodeData
  | bigint : NodeData
  | array : NodeData
  | wrap : WrapKind → Nat → NodeData
  | union : List Nat → NodeData
  | object : List (String × Nat) → NodeData
  | noType : NodeData
  | unknown : String → NodeData
deriving DecidableEq, Repr

/-- A schema store: what node value each identity resolves to. -/
def Store : Type := Nat → NodeData

/-- The schema values `enableTypeCoercion` builds.  `orig id` is the original
node with identity `id` returned as-is (pass-through); every other
constructor is a freshly allocated object: `coerced s step` is
`coerce(s, step)`, `wrap k wid s` is `{...wrapNode, wrapped: s}` where
`wrapNode` is the original node `wid` of wrapper kind `k`, `union id opts` is
`{...type, options: opts}` and `object id entries` is
`{...type, entries: ...}` for the original node `id`. -/
inductive OutSchema where
  | orig : Nat → OutSchema
  | coerced : OutSchema → CoerceStep → OutSchema
  | wrap : WrapKind → Nat → OutSchema → OutSchema
  | union : Nat → List OutSchema → OutSchema
  | object : Nat → List (String × OutSchema) → OutSchema

/-- The visited cache, a JS `Map` keyed on node identity.  Insertion is cons;
lookup takes the most recent binding (JS `Map.set` overwrites, so the newest
binding is the current one; in this code a key is never set twice anyway). -/
def Cache : Type := List (Nat × OutSchema)

/-- The lookup `cache.get(id)`. -/
def lookupCache : Cache → Nat → Option OutSchema
  | [], _ => none
  | (j, s) :: rest, id => if j = id then some s else lookupCache rest id

/-- The expression `options?.wrap ? { ...options.wrap, wrapped: schema } : schema`: splice a
result into the pending outer wrapper's `wrapped` slot when one is present.
The descriptor carries the wrapper kind and the identity of the wrapper node
being spread. -/
def spliceWrap (w : Option (WrapKind × Nat)) (s : OutSchema) : OutSchema :=
  match w with
  | none => s
  | some (k, wid) => .wrap k wid s

/-- The coercion step each recognized non-recursive branch attaches
(`none` for kinds the if/else chain of `enableTypeCoercion` either recurses
into or does not recognize). -/
def leafStepOf : NodeData → Option CoerceStep
  | .stringT => some .plainStep
  | .literal => some .plainStep
  | .enumT => some .plainStep
  | .undefinedT => some .plainStep
  | .number => some .numberStep
  | .boolean => some .booleanStep
  | .date => some .dateStep
  | .bigint => some .bigintStep
  | .array => some .arrayStep
  | _ => none

/-- Result of a leaf branch: `schema = coerce(wrap-splice(type), step)`,
followed by `cache.set(type, schema)` (the produced value always differs from
the original node, so the set at line 330 fires). -/
def leafRes (id : Nat) (w : Option (WrapKind × Nat)) (cache : Cache) (step : CoerceStep) :
    Option (OutSchema × Cache) :=
  let s := OutSchema.coerced (spliceWrap w (.orig id)) step
  some (s, (id, s) :: cache)

/-- The expression `type.options.map((option) => enableTypeCoercion(option))`: each union
alternative is transformed with no options at all, hence no pending wrap and
a fresh cache. -/
def mapOptionsWith (rec : Nat → Option (WrapKind × Nat) → Cache → Option (OutSchema × Cache)) :
    List Nat → Option (List OutSchema)
  | [] => some []
  | o :: rest =>
    match rec o none [] with
    | none => none
    | some (s, _) =>
      match mapOptionsWith rec rest with
      | none => none
      | some ss => some (s :: ss)

/-- The expression `Object.entries(type.entries).map(([key, def]) => [key,
enableTypeCoercion(def, { cache })])`: object entries are transformed left to
right sharing the one mutable cache, whose mutations accumulate. -/
def mapEntriesWith (rec : Nat → Option (WrapKind × Nat) → Cache → Option (OutSchema × Cache)) :
    List (String × Nat) → Cache → Option (List (String × OutSchema) × Cache)
  | [], cache => some ([], cache)
  | (key, e) :: rest, cache =>
    match rec e none cache with
    | none => none
    | some (s, cache') =>
      match mapEntriesWith rec rest cache' with
      | none => none
      | some (ss, cache'') => some ((key, s) :: ss, cache'')

/-- One evaluation step of `enableTypeCoercion(type, options)`
(`src/coercion.ts` lines 109-334), parameterized by the function `rec` used
for the recursive calls.  Faithfully: cache lookup first (lines 113-120),
then the missing-`type`-field early return (line 126), then the kind
dispatch; every recognized branch produces a fresh value and records it in
the *caller-visible* cache (lines 329-331), while recursive calls for wrapper
children and union options receive a fresh cache (the code passes no `cache`
option there, so line 113 allocates a new `Map`) and only object-entry
recursion shares this call's cache. -/
def etcBody (store : Store)
    (rec : Nat → Option (WrapKind × Nat) → Cache → Option (OutSchema × Cache))
    (id : Nat) (w : Option (WrapKind × Nat)) (cache : Cache) :
    Option (OutSchema × Cache) :=
  match lookupCache cache id with
  | some r => some (r, cache)
  | none =>
    match store id with
    | .noType => some (.orig id, cache)
    | .unknown _ => some (.orig id, cache)
    | .stringT => leafRes id w cache .plainStep
    | .literal => leafRes id w cache .plainStep
    | .enumT => leafRes id w cache .plainStep
    | .undefinedT => leafRes id w cache .plainStep
    | .number => leafRes id w cache .numberStep
    | .boolean => leafRes id w cache .booleanStep
    | .date => leafRes id w cache .dateStep
    | .bigint => leafRes id w cache .bigintStep
    | .array => leafRes id w cache .arrayStep
    | .wrap k c =>
      match rec c (some (k, id)) [] with
      | none => none
      | some (s₁, _) =>
        let s₂ := OutSchema.coerced (spliceWrap w s₁) .plainStep
        some (s₂, (id, s₂) :: cache)
    | .union os =>
      match mapOptionsWith rec os with
      | none => none
      | some os' =>
        let s := OutSchema.coerced (spliceWrap w (.union id os')) .plainStep
        some (s, (id, s) :: cache)
    | .object es =>
      match mapEntriesWith rec es cache with
      | none => none
      | some (es', cache') =>
        let s := spliceWrap w (.object id es')
        some (s, (id, s) :: cache')

/-- Fuel-indexed `enableTypeCoercion`: `none` means the recursion did not
complete within `fuel` nested calls.  The JS function terminates on an input
exactly when some fuel suffices. -/
def enableTypeCoercionF (store : Store) : Nat → Nat → Option (WrapKind × Nat) → Cache →
    Option (OutSchema × Cache)
  | 0, _, _, _ => none
  | fuel + 1, id, w, cache => etcBody store (enableTypeCoercionF store fuel) id w cache

/-- The exported entry point `enableTypeCoercion(type)`: no pending wrap, a
fresh cache. -/
def enableTypeCoercion (store : Store) (fuel : Nat) (id : Nat) : Option (OutSchema × Cache) :=
  enableTypeCoercionF store fuel id none []

/-- A browser-like host environment: the global `File` class is defined; the
date/number/bigint conversions are concrete stand-ins used for evaluation. -/
def browserEnv : JSEnv :=
  ⟨true, fun _ => none, fun _ => .num 0, fun _ => .bigint 0⟩

/-- A host environment whose date conversion accepts exactly the string
`"2024-01-01"`, standing for `new Date` on that input. -/
def dateEnv : JSEnv :=
  ⟨true, fun t => if t = "2024-01-01" then some 1704067200000 else none,
   fun _ => .num 0, fun _ => .bigint 0⟩

/-- The pass-through condition of `enableTypeCoercion`: a node without a
`type` field (line 126) or with a `type` string no dispatch branch
recognizes (so the if/else chain leaves `schema === type` and line 329 skips
the cache write). -/
def passThrough : NodeData → Bool
  | .noType => true
  | .unknown _ => true
  | _ => false

/-- A genuinely cyclic schema graph: node 0 is an optional schema whose
`wrapped` is node 0 itself. -/
def cycStore : Store := fun _ => .wrap .optional 0

/-- A cyclic object schema: node 0 is an object whose single entry `"self"`
refers back to node 0 itself. -/
def objCycStore : Store := fun _ => .object [("self", 0)]

/-- An object schema (node 0) whose two entries `"a"` and `"b"` both refer to
the same number schema node 1 — shared sub-schema, not a cycle. -/
def sharedStore : Store := fun n =>
  match n with
  | 0 => .object [("a", 1), ("b", 1)]
  | _ => .number

/-- A wrapper schema (node 0, kind `k`) whose wrapped child (node 1) carries
an unrecognized `type` string `u` (e.g. a picklist or lazy/recursive
schema). -/
def wrapUnknownStore (k : WrapKind) (u : String) : Store := fun n =>
  match n with
  | 0 => .wrap k 1
  | _ => .unknown u

/-- A wrapper schema (node 0, kind `k`) whose wrapped child (node 1) has no
`type` field at all. -/
def wrapNoTypeStore (k : WrapKind) : Store := fun n =>
  match n with
  | 0 => .wrap k 1
  | _ => .noType

/-- A stack of wrapper schemas over one leaf: node `i` (for `i` below the
length of `ks`) is a wrapper of kind `ks[i]` around node `i + 1`, and node
`ks.length` is the leaf. -/
def chainStore (ks : List WrapKind) (leaf : NodeData) : Store := fun n =>
  match ks.drop n with
  | k :: _ => .wrap k (n + 1)
  | [] => leaf

/-- Closed form of what `enableTypeCoercion` produces on `chainStore`: at
position `i` with remaining wrapper kinds `tl` and pending outer wrap `w`,
the leaf contributes `coerce(splice_w(leaf), step)` and each wrapper
contributes `coerce(splice_w(child result spliced into *it*), plain)`. -/
def chainExpected (st : CoerceStep) : Nat → List WrapKind → Option (WrapKind × Nat) → OutSchema
  | i, [], w => .coerced (spliceWrap w (.orig i)) st
  | i, k :: tl, w => .coerced (spliceWrap w (chainExpected st (i + 1) tl (some (k, i)))) .plainStep

/-- Number of `coerce` layers along the wrapper spine of a produced schema
(through `coerced` and `wrap` nodes; composite nodes end the spine). -/
def spineCoerceCount : OutSchema → Nat
  | .coerced s _ => spineCoerceCount s + 1
  | .wrap _ _ s => spineCoerceCount s
  | _ => 0

/-- The wrapper kinds along the spine of a produced schema, outermost
first. -/
def spineWrapKinds : OutSchema → List WrapKind
  | .coerced s _ => spineWrapKinds s
  | .wrap k _ s => k :: spineWrapKinds s
  | _ => []

/-- The wrapper kinds a pending wrap descriptor will contribute. -/
def pendingKinds : Option (WrapKind × Nat) → List WrapKind
  | none => []
  | some (k, _) => [k]

/-- Claim C4: `coerceString(value, transform)` returns non-strings unchanged,
returns the absent sentinel (`undefined`) on the empty string regardless of
the transform, returns a non-empty string unchanged when no transform is
supplied, and otherwise returns `transform(value)`. -/
theorem coerceString_contract (v : JSValue) (t : Option (String → JSValue))
    (s : String) (f : String → JSValue) :
    (isString v = false → coerceString v t = v) ∧
    coerceString (.str "") t = .undefined ∧
    (s ≠ "" → coerceString (.str s) none = .str s) ∧
    (s ≠ "" → coerceString (.str s) (some f) = f s) := by
  refine ⟨?_, ?_, ?_, ?_⟩
  · intro h
    cases v <;> first | rfl | simp [isString] at h
  · rfl
  · intro h
    simp [coerceString, h]
  · intro h
    simp [coerceString, h]

/-- Witness for C4 at concrete inputs: a number passes through, the empty
string becomes absent, a non-empty string without transform is unchanged, and
with a transform the transform's result is returned. -/
theorem coerceString_contract_witness :
    coerceString (.num 3) (some fun s => .str s) = .num 3 ∧
    coerceString (.str "") none = .undefined ∧
    coerceString (.str "abc") none = .str "abc" ∧
    coerceString (.str "42") (some fun _ => .bool true) = .bool true :=
  ⟨(coerceString_contract (.num 3) (some fun s => JSValue.str s) "x" (fun s => .str s)).1 rfl,
   (coerceString_contract (.num 3) none "x" (fun s => JSValue.str s)).2.1,
   (coerceString_contract (.num 3) none "abc" (fun s => JSValue.str s)).2.2.1 (by decide),
   (coerceString_contract (.num 3) none "42" (fun _ => JSValue.bool true)).2.2.2 (by decide)⟩

/-- Claim C5 as stated is false: `coerceFile` converts to absent only values
that are `instanceof File`; a plain object carrying `name: ""` and `size: 0`
is returned unchanged, not replaced by the absent sentinel. -/
theorem coerceFile_plain_object_counterexample :
    coerceFile browserEnv (.obj "" 0) = .obj "" 0 ∧
    coerceFile browserEnv (.obj "" 0) ≠ .undefined :=
  ⟨rfl, fun h => JSValue.noConfusion h⟩

/-- Claim C5 (amended): when the `File` class is defined, `coerceFile`
returns the absent sentinel for a `File` instance with empty name and zero
size; a plain non-`File` object of shape `{name, size}` — including
`{name: "", size: 0}` — is returned unchanged, as is every `File` with a
non-empty name or nonzero size and every non-file value. -/
theorem coerceFile_contract (env : JSEnv) (v : JSValue) (n : String) (sz : Nat) :
    (env.fileDefined = true → coerceFile env (.file "" 0) = .undefined) ∧
    coerceFile env (.obj n sz) = .obj n sz ∧
    (n ≠ "" → coerceFile env (.file n sz) = .file n sz) ∧
    (sz ≠ 0 → coerceFile env (.file n sz) = .file n sz) ∧
    (isFileInstance v = false → coerceFile env v = v) := by
  refine ⟨?_, ?_, ?_, ?_, ?_⟩
  · intro h
    simp [coerceFile, isFileInstance, fileName, fileSize, h]
  · simp [coerceFile, isFileInstance]
  · intro h
    simp [coerceFile, isFileInstance, fileName, fileSize, h]
  · intro h
    simp [coerceFile, isFileInstance, fileName, fileSize, h]
  · intro h
    simp [coerceFile, h]

/-- Witness for the amended C5 at concrete inputs: an empty `File` becomes
absent, a plain `{name: "", size: 0}` object and a named `File` pass
through, and a string passes through. -/
theorem coerceFile_contract_witness :
    coerceFile browserEnv (.file "" 0) = .undefined ∧
    coerceFile browserEnv (.obj "" 0) = .obj "" 0 ∧
    coerceFile browserEnv (.file "a.txt" 3) = .file "a.txt" 3 ∧
    coerceFile browserEnv (.str "not a file") = .str "not a file" :=
  ⟨(coerceFile_contract browserEnv (.str "not a file") "a.txt" 3).1 rfl,
   (coerceFile_contract browserEnv (.str "not a file") "" 0).2.1,
   (coerceFile_contract browserEnv (.str "not a file") "a.txt" 3).2.2.1 (by decide),
   (coerceFile_contract browserEnv (.str "not a file") "a.txt" 3).2.2.2.2 rfl⟩

/-- Claim C6: `coerceFile` produces the absent sentinel only for `File`
instances with empty name and zero size (any other value mapping to
`undefined` must already *be* `undefined`); when no global `File` class is
defined it is the identity on every input; and when `File` is defined the
empty `File` instance does map to absent. -/
theorem coerceFile_instance_only (env : JSEnv) (v : JSValue) :
    (v ≠ .undefined → coerceFile env v = .undefined →
      env.fileDefined = true ∧ v = .file "" 0) ∧
    (env.fileDefined = false → coerceFile env v = v) ∧
    (env.fileDefined = true → coerceFile env (.file "" 0) = .undefined) := by
  refine ⟨?_, ?_, ?_⟩
  · intro hv h
    by_cases hc :
        (env.fileDefined && isFileInstance v && (fileName v = "") && (fileSize v = 0)) = true
    · have hd : env.fileDefined = true := by
        rcases Bool.and_eq_true_iff.mp hc with ⟨hc', _⟩
        rcases Bool.and_eq_true_iff.mp hc' with ⟨hc'', _⟩
        exact (Bool.and_eq_true_iff.mp hc'').1
      refine ⟨hd, ?_⟩
      rcases Bool.and_eq_true_iff.mp hc with ⟨hc', hsz⟩
      rcases Bool.and_eq_true_iff.mp hc' with ⟨hc'', hnm⟩
      have hfi : isFileInstance v = true := (Bool.and_eq_true_iff.mp hc'').2
      cases v <;> simp [isFileInstance] at hfi
      simp only [fileName, fileSize, decide_eq_true_eq] at hnm hsz
      simp [hnm, hsz]
    · rw [coerceFile, if_neg] at h
      · exact absurd h hv
      · simp only [hc]
        exact Bool.false_ne_true
  · intro hd
    simp [coerceFile, hd]
  · intro hd
    simp [coerceFile, isFileInstance, fileName, fileSize, hd]

/-- Witness for C6 at concrete inputs: applying the theorem in an
environment without a `File` class shows `coerceFile` is the identity there,
and with one shows the empty `File` maps to absent. -/
theorem coerceFile_instance_only_witness :
    coerceFile ⟨false, fun _ => none, fun _ => .num 0, fun _ => .bigint 0⟩ (.file "" 0) =
      .file "" 0 ∧
    coerceFile browserEnv (.file "" 0) = .undefined :=
  ⟨(coerceFile_instance_only ⟨false, fun _ => none, fun _ => JSValue.num 0,
      fun _ => JSValue.bigint 0⟩ (.file "" 0)).2.1 rfl,
   (coerceFile_instance_only browserEnv (.file "" 0)).2.2 rfl⟩

/-- Claim C7: the branch for an array-kind schema attaches the array
preprocessing step, and that step maps an array to itself unchanged, the
absent value (`undefined`) or a value `coerceFile` maps to `undefined` to the
empty array, and every other value to a one-element array holding it. -/
theorem array_coercion_step (env : JSEnv) (store : Store) (fuel id : Nat)
    (w : Option (WrapKind × Nat)) (cache : Cache) (v : JSValue)
    (hid : store id = .array) (hc : lookupCache cache id = none) :
    enableTypeCoercionF store (fuel + 1) id w cache =
      some (.coerced (spliceWrap w (.orig id)) .arrayStep,
        (id, .coerced (spliceWrap w (.orig id)) .arrayStep) :: cache) ∧
    (∀ xs, runStep env .arrayStep (.arr xs) = .arr xs) ∧
    runStep env .arrayStep .undefined = .arr [] ∧
    (coerceFile env v = .undefined → runStep env .arrayStep v = .arr []) ∧
    (isArray v = false → v ≠ .undefined → coerceFile env v ≠ .undefined →
      runStep env .arrayStep v = .arr [v]) := by
  refine ⟨?_, ?_, ?_, ?_, ?_⟩
  · simp [enableTypeCoercionF, etcBody, hc, hid, leafRes]
  · intro xs
    rfl
  · rfl
  · intro h
    have hna : isArray v = false := by
      cases v <;> try rfl
      exfalso
      simp [coerceFile, isFileInstance] at h
    simp [runStep, hna, h, isUndefined]
  · intro ha hu hf
    have hu' : isUndefined v = false := by
      cases v <;> first | rfl | exact absurd rfl hu
    have hf' : isUndefined (coerceFile env v) = false := by
      cases hcf : coerceFile env v <;> first | rfl | exact absurd hcf hf
    simp [runStep, ha, hu', hf']

/-- Witness for C7 at concrete inputs: the array schema gets the array step
attached, and the step maps `undefined` and an empty `File` to `[]`, leaves
`["a", "b"]` unchanged, and wraps `"x"` as `["x"]`. -/
theorem array_coercion_step_witness :
    enableTypeCoercionF (fun _ => .array) 1 0 none [] =
      some (.coerced (.orig 0) .arrayStep, [(0, .coerced (.orig 0) .arrayStep)]) ∧
    runStep browserEnv .arrayStep .undefined = .arr [] ∧
    runStep browserEnv .arrayStep (.file "" 0) = .arr [] ∧
    runStep browserEnv .arrayStep (.arr [.str "a", .str "b"]) = .arr [.str "a", .str "b"] ∧
    runStep browserEnv .arrayStep (.str "x") = .arr [.str "x"] :=
  ⟨(array_coercion_step browserEnv (fun _ => .array) 0 0 none [] .undefined rfl rfl).1,
   (array_coercion_step browserEnv (fun _ => .array) 0 0 none [] .undefined rfl rfl).2.2.1,
   (array_coercion_step browserEnv (fun _ => .array) 0 0 none [] (.file "" 0) rfl rfl).2.2.2.1
     rfl,
   (array_coercion_step browserEnv (fun _ => .array) 0 0 none []
     (.arr [.str "a", .str "b"]) rfl rfl).2.1 [.str "a", .str "b"],
   (array_coercion_step browserEnv (fun _ => .array) 0 0 none [] (.str "x") rfl rfl).2.2.2.2
     rfl (fun h => JSValue.noConfusion h) (fun h => JSValue.noConfusion h)⟩

/-- Claim C8: the branch for a date-kind schema attaches the date
preprocessing step, and that step maps the empty string to absent, a
non-empty string with a valid date parse to the parsed date, a non-empty
string with an invalid parse back to the original string, and non-strings
through unchanged. -/
theorem date_coercion_step (env : JSEnv) (store : Store) (fuel id : Nat)
    (w : Option (WrapKind × Nat)) (cache : Cache) (v : JSValue) (s : String) (d : Int)
    (hid : store id = .date) (hc : lookupCache cache id = none) :
    enableTypeCoercionF store (fuel + 1) id w cache =
      some (.coerced (spliceWrap w (.orig id)) .dateStep,
        (id, .coerced (spliceWrap w (.orig id)) .dateStep) :: cache) ∧
    runStep env .dateStep (.str "") = .undefined ∧
    (s ≠ "" → env.parseDate s = some d → runStep env .dateStep (.str s) = .date d) ∧
    (s ≠ "" → env.parseDate s = none → runStep env .dateStep (.str s) = .str s) ∧
    (isString v = false → runStep env .dateStep v = v) := by
  refine ⟨?_, rfl, ?_, ?_, ?_⟩
  · simp [enableTypeCoercionF, etcBody, hc, hid, leafRes]
  · intro hs hp
    simp [runStep, coerceString, hs, hp]
  · intro hs hp
    simp [runStep, coerceString, hs, hp]
  · intro h
    cases v <;> first | rfl | simp [isString] at h

/-- Witness for C8 at concrete inputs: the date schema gets the date step
attached, `"2024-01-01"` parses to the corresponding date value,
`"not-a-date"` comes back unchanged, and `""` becomes absent. -/
theorem date_coercion_step_witness :
    enableTypeCoercionF (fun _ => .date) 1 0 none [] =
      some (.coerced (.orig 0) .dateStep, [(0, .coerced (.orig 0) .dateStep)]) ∧
    runStep dateEnv .dateStep (.str "") = .undefined ∧
    runStep dateEnv .dateStep (.str "2024-01-01") = .date 1704067200000 ∧
    runStep dateEnv .dateStep (.str "not-a-date") = .str "not-a-date" :=
  ⟨(date_coercion_step dateEnv (fun _ => .date) 0 0 none [] .undefined "x" 0 rfl rfl).1,
   (date_coercion_step dateEnv (fun _ => .date) 0 0 none [] .undefined "x" 0 rfl rfl).2.1,
   (date_coercion_step dateEnv (fun _ => .date) 0 0 none [] .undefined "2024-01-01"
     1704067200000 rfl rfl).2.2.1 (by decide) (by decide),
   (date_coercion_step dateEnv (fun _ => .date) 0 0 none [] .undefined "not-a-date" 0
     rfl rfl).2.2.2.1 (by decide) (by decide)⟩

/-- Claim C9: the branch for a boolean-kind schema attaches the boolean
preprocessing step, and that step maps exactly the string `"on"` to `true`,
the empty string to absent, every other non-empty string (such as `"false"`,
`"true"`, `"off"`) through unchanged, and non-strings through unchanged. -/
theorem boolean_coercion_step (env : JSEnv) (store : Store) (fuel id : Nat)
    (w : Option (WrapKind × Nat)) (cache : Cache) (v : JSValue) (s : String)
    (hid : store id = .boolean) (hc : lookupCache cache id = none) :
    enableTypeCoercionF store (fuel + 1) id w cache =
      some (.coerced (spliceWrap w (.orig id)) .booleanStep,
        (id, .coerced (spliceWrap w (.orig id)) .booleanStep) :: cache) ∧
    runStep env .booleanStep (.str "on") = .bool true ∧
    runStep env .booleanStep (.str "") = .undefined ∧
    (s ≠ "" → s ≠ "on" → runStep env .booleanStep (.str s) = .str s) ∧
    (isString v = false → runStep env .booleanStep v = v) := by
  refine ⟨?_, rfl, rfl, ?_, ?_⟩
  · simp [enableTypeCoercionF, etcBody, hc, hid, leafRes]
  · intro hs hon
    simp [runStep, coerceString, hs, hon]
  · intro h
    cases v <;> first | rfl | simp [isString] at h

/-- Witness for C9 at concrete inputs: the boolean schema gets the boolean
step attached, `"on"` maps to `true`, `""` to absent, and `"false"`, `"off"`
and a number pass through unchanged. -/
theorem boolean_coercion_step_witness :
    enableTypeCoercionF (fun _ => .boolean) 1 0 none [] =
      some (.coerced (.orig 0) .booleanStep, [(0, .coerced (.orig 0) .booleanStep)]) ∧
    runStep browserEnv .booleanStep (.str "on") = .bool true ∧
    runStep browserEnv .booleanStep (.str "") = .undefined ∧
    runStep browserEnv .booleanStep (.str "false") = .str "false" ∧
    runStep browserEnv .booleanStep (.str "off") = .str "off" ∧
    runStep browserEnv .booleanStep (.num 7) = .num 7 :=
  ⟨(boolean_coercion_step browserEnv (fun _ => .boolean) 0 0 none [] .undefined "x"
     rfl rfl).1,
   (boolean_coercion_step browserEnv (fun _ => .boolean) 0 0 none [] .undefined "x"
     rfl rfl).2.1,
   (boolean_coercion_step browserEnv (fun _ => .boolean) 0 0 none [] .undefined "x"
     rfl rfl).2.2.1,
   (boolean_coercion_step browserEnv (fun _ => .boolean) 0 0 none [] .undefined "false"
     rfl rfl).2.2.2.1 (by decide) (by decide),
   (boolean_coercion_step browserEnv (fun _ => .boolean) 0 0 none [] .undefined "off"
     rfl rfl).2.2.2.1 (by decide) (by decide),
   (boolean_coercion_step browserEnv (fun _ => .boolean) 0 0 none [] (.num 7) "x"
     rfl rfl).2.2.2.2 rfl⟩

/-- Claim C3: a wrapper-kind node whose wrapped child lacks a `type` field or
carries an unrecognized kind yields only the coerced child: the child's
pass-through path ignores the pending wrap descriptor, so the wrapper node is
not reconstructed around the result — the output is `coerce(child, plain)`
with no wrapper layer, for every wrapper kind `k` and every unrecognized kind
string `u`. -/
theorem wrapper_unrecognized_child (k : WrapKind) (u : String) :
    enableTypeCoercion (wrapUnknownStore k u) 2 0 =
      some (.coerced (.orig 1) .plainStep, [(0, .coerced (.orig 1) .plainStep)]) ∧
    enableTypeCoercion (wrapNoTypeStore k) 2 0 =
      some (.coerced (.orig 1) .plainStep, [(0, .coerced (.orig 1) .plainStep)]) :=
  ⟨rfl, rfl⟩

/-- Claim C10: the transformation never mutates the input graph (the store is
read-only throughout the embedding); it returns the original node itself
(identity-preserved, `orig`) exactly on the pass-through paths — no `type`
field, or an unrecognized kind — and on every recognized kind the returned
root is a freshly constructed value, never one of the original nodes. -/
theorem transform_identity (store : Store) (fuel id : Nat) (w : Option (WrapKind × Nat))
    (cache : Cache) (hc : lookupCache cache id = none) :
    (passThrough (store id) = true →
      enableTypeCoercionF store (fuel + 1) id w cache = some (.orig id, cache)) ∧
    (passThrough (store id) = false →
      ∀ r c', enableTypeCoercionF store (fuel + 1) id w cache = some (r, c') →
        ∀ j, r ≠ .orig j) := by
  constructor
  · intro hp
    cases hd : store id <;> simp [passThrough, hd] at hp <;>
      simp [enableTypeCoercionF, etcBody, hc, hd]
  · intro hp r c' h j
    cases hd : store id
    all_goals rw [hd] at hp
    case noType => simp [passThrough] at hp
    case unknown => simp [passThrough] at hp
    all_goals
      simp only [enableTypeCoercionF, etcBody, hc, hd, leafRes] at h
    case wrap k c =>
      rcases hr : enableTypeCoercionF store fuel c (some (k, id)) [] with _ | ⟨s₁, c₁⟩
      · rw [hr] at h
        exact Option.noConfusion h
      · rw [hr] at h
        simp only [Option.some.injEq, Prod.mk.injEq] at h
        obtain ⟨rfl, rfl⟩ := h
        exact fun hh => OutSchema.noConfusion hh
    case union os =>
      rcases hr : mapOptionsWith (enableTypeCoercionF store fuel) os with _ | os'
      · rw [hr] at h
        exact Option.noConfusion h
      · rw [hr] at h
        simp only [Option.some.injEq, Prod.mk.injEq] at h
        obtain ⟨rfl, rfl⟩ := h
        exact fun hh => OutSchema.noConfusion hh
    case object es =>
      rcases hr : mapEntriesWith (enableTypeCoercionF store fuel) es cache with _ | ⟨es', cc⟩
      · rw [hr] at h
        exact Option.noConfusion h
      · rw [hr] at h
        simp only [Option.some.injEq, Prod.mk.injEq] at h
        obtain ⟨rfl, rfl⟩ := h
        cases w with
        | none => exact fun hh => OutSchema.noConfusion hh
        | some p =>
          obtain ⟨k, wid⟩ := p
          exact fun hh => OutSchema.noConfusion hh
    all_goals
      simp only [Option.some.injEq, Prod.mk.injEq] at h
    all_goals
      obtain ⟨rfl, rfl⟩ := h
    all_goals
      exact fun hh => OutSchema.noConfusion hh

/-- Witness for C10 at concrete inputs: a node with no `type` field passes
through identity-preserved, and a string schema produces a fresh coerce
node. -/
theorem transform_identity_witness :
    enableTypeCoercionF (fun _ => .noType) 1 0 none [] = some (.orig 0, []) ∧
    (∀ j, OutSchema.coerced (.orig 0) .plainStep ≠ .orig j) :=
  ⟨(transform_identity (fun _ => .noType) 0 0 none [] rfl).1 rfl,
   (transform_identity (fun _ => .stringT) 0 0 none [] rfl).2 rfl
     (.coerced (.orig 0) .plainStep) [(0, .coerced (.orig 0) .plainStep)] rfl⟩

/-- A schema node that is its own `wrapped` child makes the transformer
recurse without ever completing: wrapper recursion passes no cache down, and
the cache is only written after a branch finishes, so the cycle is never
detected. -/
theorem cycStore_no_fuel (fuel : Nat) : ∀ (w : Option (WrapKind × Nat)),
    enableTypeCoercionF cycStore fuel 0 w [] = none := by
  induction fuel with
  | zero => intro w; rfl
  | succ n ih =>
    intro w
    simp only [enableTypeCoercionF, etcBody, lookupCache, cycStore, ih]

/-- A schema node that is an object with an entry referring back to itself
also never completes: the cache write at the end of the object branch happens
only after all entries have recursed, so the inner visit misses the cache. -/
theorem objCycStore_no_fuel (fuel : Nat) : ∀ (w : Option (WrapKind × Nat)),
    enableTypeCoercionF objCycStore fuel 0 w [] = none := by
  induction fuel with
  | zero => intro w; rfl
  | succ n ih =>
    intro w
    simp only [enableTypeCoercionF, etcBody, lookupCache, objCycStore, mapEntriesWith, ih]

/-- Claim C1 is false: on a schema node reachable from itself —
a wrapper whose `wrapped` is itself, or an object with an entry referring
back to the object — `enableTypeCoercion` does not terminate: no recursion
depth (fuel) completes, because the visited cache is written only after a
branch finishes and is not passed into wrapper recursion at all, so the
in-progress node is never found in it. -/
theorem cyclic_schema_diverges :
    (¬ ∃ fuel r, enableTypeCoercion cycStore fuel 0 = some r) ∧
    (¬ ∃ fuel r, enableTypeCoercion objCycStore fuel 0 = some r) := by
  constructor
  · rintro ⟨fuel, r, h⟩
    rw [enableTypeCoercion, cycStore_no_fuel fuel none] at h
    exact Option.noConfusion h
  · rintro ⟨fuel, r, h⟩
    rw [enableTypeCoercion, objCycStore_no_fuel fuel none] at h
    exact Option.noConfusion h

/-- Claim C1 (amended): the cache does not terminate genuinely cyclic nodes
(see the counterexample); what holds instead is that a self-referential
lazy/recursive schema ends recursion because its kind is unrecognized and it
passes through unchanged in one step, and that within one object's entries
the shared cache resolves a node already transformed by an earlier entry to
the very same replacement (here both entries of `sharedStore`'s object map to
the one transformed number schema, the second via a cache hit). -/
theorem cache_and_passthrough_termination (store : Store) (fuel id : Nat)
    (w : Option (WrapKind × Nat)) (cache : Cache) (u : String)
    (h1 : store id = .unknown u) (h2 : lookupCache cache id = none) :
    enableTypeCoercionF store (fuel + 1) id w cache = some (.orig id, cache) ∧
    enableTypeCoercion sharedStore 2 0 =
      some (.object 0 [("a", .coerced (.orig 1) .numberStep),
                       ("b", .coerced (.orig 1) .numberStep)],
        [(0, .object 0 [("a", .coerced (.orig 1) .numberStep),
                        ("b", .coerced (.orig 1) .numberStep)]),
         (1, .coerced (.orig 1) .numberStep)]) := by
  constructor
  · simp [enableTypeCoercionF, etcBody, h2, h1]
  · rfl

/-- Witness for the amended C1 at concrete inputs: a lazy/recursive schema
node (unrecognized kind `"recursive"`) that refers to itself returns
unchanged in one step. -/
theorem cache_and_passthrough_termination_witness :
    enableTypeCoercionF (fun _ => .unknown "recursive") 1 0 none [] = some (.orig 0, []) :=
  (cache_and_passthrough_termination (fun _ => .unknown "recursive") 0 0 none []
    "recursive" rfl rfl).1

/-- Evaluation of the transformer on a stack of wrappers: at position `i` of
`chainStore ks leaf` with `tl` wrapper kinds left below and pending wrap `w`,
the result is the closed form `chainExpected` and the only cache write is for
node `i` (wrapper recursion hands each child a fresh cache). -/
theorem chainStore_eval (leaf : NodeData) (st : CoerceStep)
    (hleaf : leafStepOf leaf = some st) :
    ∀ (tl ks : List WrapKind) (i : Nat) (w : Option (WrapKind × Nat)),
      ks.drop i = tl →
      enableTypeCoercionF (chainStore ks leaf) (tl.length + 1) i w [] =
        some (chainExpected st i tl w, [(i, chainExpected st i tl w)]) := by
  intro tl
  induction tl with
  | nil =>
    intro ks i w hdrop
    cases leaf <;>
      first
      | exact Option.noConfusion hleaf
      | (simp only [leafStepOf, Option.some.injEq] at hleaf
         subst hleaf
         simp [enableTypeCoercionF, etcBody, lookupCache, chainStore, hdrop, leafRes,
           chainExpected])
  | cons k tl ih =>
    intro ks i w hdrop
    have hdrop' : ks.drop (i + 1) = tl := by
      have h1 : List.drop 1 (List.drop i ks) = tl := by rw [hdrop]; rfl
      rwa [List.drop_drop] at h1
    have hstore : chainStore ks leaf i = .wrap k (i + 1) := by
      simp [chainStore, hdrop]
    have hrec := ih ks (i + 1) (some (k, i)) hdrop'
    have hstep : enableTypeCoercionF (chainStore ks leaf) ((k :: tl).length + 1) i w [] =
        etcBody (chainStore ks leaf)
          (enableTypeCoercionF (chainStore ks leaf) (tl.length + 1)) i w [] := rfl
    rw [hstep]
    simp only [etcBody, lookupCache, hstore, hrec, chainExpected]

/-- Along the spine of `chainExpected`, there are exactly `tl.length + 1`
coercion layers (one per wrapper plus one for the leaf) and the wrapper kinds
appear in order, below whatever wrapper the pending descriptor splices. -/
theorem chainExpected_spine (st : CoerceStep) :
    ∀ (tl : List WrapKind) (i : Nat) (w : Option (WrapKind × Nat)),
      spineCoerceCount (chainExpected st i tl w) = tl.length + 1 ∧
      spineWrapKinds (chainExpected st i tl w) = pendingKinds w ++ tl := by
  intro tl
  induction tl with
  | nil =>
    intro i w
    rcases w with _ | ⟨k, wid⟩ <;>
      simp [chainExpected, spliceWrap, spineCoerceCount, spineWrapKinds, pendingKinds]
  | cons k tl ih =>
    intro i w
    have h1 := (ih (i + 1) (some (k, i))).1
    have h2 := (ih (i + 1) (some (k, i))).2
    rcases w with _ | ⟨k', wid⟩ <;>
      simp [chainExpected, spliceWrap, spineCoerceCount, spineWrapKinds, pendingKinds,
        h1, h2]

/-- Claim C2: on any stack of wrapper kinds `ks` over a coercible leaf, the
transformer splices each inner result into the outer wrapper's wrapped-slot:
the output evaluates to the closed form `chainExpected`, which carries
exactly one coercion step per node (`ks.length + 1` in total, not two per
wrapper) and preserves the nesting order of the wrapper kinds. -/
theorem wrapper_stack_coercion (ks : List WrapKind) (leaf : NodeData) (st : CoerceStep)
    (hleaf : leafStepOf leaf = some st) :
    enableTypeCoercion (chainStore ks leaf) (ks.length + 1) 0 =
      some (chainExpected st 0 ks none, [(0, chainExpected st 0 ks none)]) ∧
    spineCoerceCount (chainExpected st 0 ks none) = ks.length + 1 ∧
    spineWrapKinds (chainExpected st 0 ks none) = ks := by
  refine ⟨?_, ?_, ?_⟩
  · exact chainStore_eval leaf st hleaf ks ks 0 none rfl
  · exact (chainExpected_spine st ks 0 none).1
  · have h := (chainExpected_spine st ks 0 none).2
    simpa [pendingKinds] using h

/-- Witness for C2 at a concrete input: an optional-around-nullable stack
over a number schema produces the spliced closed form with three coercion
layers (one per node) and the wrapper order `[optional, nullable]`
preserved. -/
theorem wrapper_stack_coercion_witness :
    enableTypeCoercion (chainStore [.optional, .nullable] .number) 3 0 =
      some (chainExpected .numberStep 0 [.optional, .nullable] none,
        [(0, chainExpected .numberStep 0 [.optional, .nullable] none)]) ∧
    spineCoerceCount (chainExpected .numberStep 0 [.optional, .nullable] none) = 3 ∧
    spineWrapKinds (chainExpected .numberStep 0 [.optional, .nullable] none) =
      [.optional, .nullable] :=
  wrapper_stack_coercion [.optional, .nullable] .number .numberStep rfl
